import Mathlib

/-!
# Verification of the ad-reference Brand Collection Engine

Shallow embedding of the parts of the `ad-reference` repository that the
frozen claims C1..C10 are about:

* `backend/conn.py` — transactional wrapper `get_db` (commit on success,
  rollback on any exception inside the `with` block);
* `backend/platforms/scrape_worker.py` — `upsert_ads_batch` (the Ad Store
  upsert, `INSERT … ON CONFLICT (source_id, platform) DO UPDATE …`);
* `backend/platforms/google_scraper.py` — `is_blocked_url`,
  `make_source_id`, `get_existing_creative_ids`,
  `_extract_youtube_video_id`, `variant_to_platform_ad`, the per-variant
  landing-URL resolution and the batched-streaming accumulation loop of
  `scrape_google_ads_by_domain`;
* `backend/platforms/model.py` — the `PlatformAd` record;
* `backend/migrate.py` — the `ads` table column constraints.

Python strings are modelled as Lean `String` (a list of characters);
`str.lower()` is modelled with `Char.toLower` (adequate for the ASCII
material the claims quantify over), `pat in s` as substring containment on
character lists, and timestamps (`NOW()`) as an abstract `Nat` supplied to
each store operation.  `hashlib.sha256(...).hexdigest()` is embedded as a
complete executable SHA-256 over the UTF-8 bytes of the input.
-/

set_option maxRecDepth 100000

namespace AdRef

/-! ## String helpers (Python string operations) -/

/-- Python `pat in s` on lists of characters: `pat` occurs as a contiguous
substring. -/
def listContainsSub (pat : List Char) : List Char → Bool
  | [] => pat.isEmpty
  | c :: tl => pat.isPrefixOf (c :: tl) || listContainsSub pat tl

/-- Python `pat in s` for strings (substring containment). -/
def strContains (s pat : String) : Bool :=
  listContainsSub pat.data s.data

/-- Python `s.lower()` (modelled on ASCII case folding). -/
def pyLower (s : String) : String :=
  ⟨s.data.map Char.toLower⟩

/-- Python `s.startswith(pat)`. -/
def strStartsWith (s pat : String) : Bool :=
  pat.data.isPrefixOf s.data

/-- Python `s[:n]` (first `n` characters). -/
def strTake (s : String) (n : Nat) : String :=
  ⟨s.data.take n⟩

theorem listContainsSub_of_isInfix {pat s : List Char} (h : pat <:+: s) :
    listContainsSub pat s = true := by
  induction s with
  | nil =>
    rcases h with ⟨l, r, hlr⟩
    have : pat = [] := by
      have h0 : l ++ pat ++ r = [] := hlr
      simp only [List.append_eq_nil] at h0
      exact h0.1.2
    simp [listContainsSub, this, List.isEmpty]
  | cons c tl ih =>
    rcases (List.infix_cons_iff.mp h) with hpre | hinf
    · simp [listContainsSub, List.isPrefixOf_iff_prefix.mpr hpre]
    · simp [listContainsSub, ih hinf]

theorem strContains_of_infix {s pat : String} (h : pat.data <:+: s.data) :
    strContains s pat = true :=
  listContainsSub_of_isInfix h

/-! ## SHA-256 (embedding of Python `hashlib.sha256(...).hexdigest()`)

Words are `Nat` values kept below `2^32` explicitly. -/

namespace SHA256

def M32 : Nat := 4294967296

def add32 (a b : Nat) : Nat := (a + b) % M32

def rotr (n x : Nat) : Nat := ((x >>> n) ||| (x <<< (32 - n))) % M32

def bsig0 (x : Nat) : Nat := (rotr 2 x) ^^^ (rotr 13 x) ^^^ (rotr 22 x)

def bsig1 (x : Nat) : Nat := (rotr 6 x) ^^^ (rotr 11 x) ^^^ (rotr 25 x)

def ssig0 (x : Nat) : Nat := (rotr 7 x) ^^^ (rotr 18 x) ^^^ (x >>> 3)

def ssig1 (x : Nat) : Nat := (rotr 17 x) ^^^ (rotr 19 x) ^^^ (x >>> 10)

def ch (x y z : Nat) : Nat := (x &&& y) ^^^ ((x ^^^ (M32 - 1)) &&& z)

def maj (x y z : Nat) : Nat := (x &&& y) ^^^ (x &&& z) ^^^ (y &&& z)

/-- The 64 round constants of FIPS 180-4, written in decimal. -/
def K : List Nat :=
  [1116352408, 1899447441, 3049323471, 3921009573,
   961987163, 1508970993, 2453635748, 2870763221,
   3624381080, 310598401, 607225278, 1426881987,
   1925078388, 2162078206, 2614888103, 3248222580,
   3835390401, 4022224774, 264347078, 604807628,
   770255983, 1249150122, 1555081692, 1996064986,
   2554220882, 2821834349, 2952996808, 3210313671,
   3336571891, 3584528711, 113926993, 338241895,
   666307205, 773529912, 1294757372, 1396182291,
   1695183700, 1986661051, 2177026350, 2456956037,
   2730485921, 2820302411, 3259730800, 3345764771,
   3516065817, 3600352804, 4094571909, 275423344,
   430227734, 506948616, 659060556, 883997877,
   958139571, 1322822218, 1537002063, 1747873779,
   1955562222, 2024104815, 2227730452, 2361852424,
   2428436474, 2756734187, 3204031479, 3329325298]

/-- The initial hash state of FIPS 180-4, written in decimal. -/
def H0 : List Nat :=
  [1779033703, 3144134277, 1013904242, 2773480762,
   1359893119, 2600822924, 528734635, 1541459225]

/-- Big-endian bytes of the 64-bit message length. -/
def lenBytes (bits : Nat) : List Nat :=
  [bits >>> 56 % 256, bits >>> 48 % 256, bits >>> 40 % 256, bits >>> 32 % 256,
   bits >>> 24 % 256, bits >>> 16 % 256, bits >>> 8 % 256, bits % 256]

/-- SHA-256 message padding. -/
def pad (msg : List Nat) : List Nat :=
  let r := msg.length % 64
  let k := if r ≤ 55 then 55 - r else 119 - r
  msg ++ [0x80] ++ List.replicate k 0 ++ lenBytes (msg.length * 8)

/-- Big-endian 32-bit words from a list of bytes. -/
def toWords : List Nat → List Nat
  | b0 :: b1 :: b2 :: b3 :: rest =>
      (((b0 * 256 + b1) * 256 + b2) * 256 + b3) :: toWords rest
  | _ => []

/-- Split the padded byte stream into 64-byte blocks (structural recursion
on a fuel bounded by the list length, so that the kernel can evaluate it). -/
def blocksAux : Nat → List Nat → List (List Nat)
  | _, [] => []
  | 0, l => [l.take 64]
  | fuel + 1, l => l.take 64 :: blocksAux fuel (l.drop 64)

def blocks (l : List Nat) : List (List Nat) :=
  blocksAux l.length l

/-- Message schedule: extend 16 words to 64. -/
def schedule (w16 : Array Nat) : Array Nat :=
  (List.range 48).foldl
    (fun w j =>
      let i := j + 16
      w.push (add32 (add32 (w.getD (i - 16) 0) (ssig0 (w.getD (i - 15) 0)))
                    (add32 (w.getD (i - 7) 0) (ssig1 (w.getD (i - 2) 0)))))
    w16

/-- One compression round. -/
def round (st : Nat × Nat × Nat × Nat × Nat × Nat × Nat × Nat) (kw : Nat × Nat) :
    Nat × Nat × Nat × Nat × Nat × Nat × Nat × Nat :=
  let (a, b, c, d, e, f, g, h) := st
  let t1 := add32 (add32 (add32 h (bsig1 e)) (add32 (ch e f g) kw.1)) kw.2
  let t2 := add32 (bsig0 a) (maj a b c)
  (add32 t1 t2, a, b, c, add32 d t1, e, f, g)

/-- Compress one 64-byte block into the running hash state. -/
def compress (h : List Nat) (block : List Nat) : List Nat :=
  let w := schedule (toWords block).toArray
  let init : Nat × Nat × Nat × Nat × Nat × Nat × Nat × Nat :=
    (h.getD 0 0, h.getD 1 0, h.getD 2 0, h.getD 3 0,
     h.getD 4 0, h.getD 5 0, h.getD 6 0, h.getD 7 0)
  let (a, b, c, d, e, f, g, hh) :=
    (K.zip w.toList).foldl round init
  [add32 (h.getD 0 0) a, add32 (h.getD 1 0) b, add32 (h.getD 2 0) c,
   add32 (h.getD 3 0) d, add32 (h.getD 4 0) e, add32 (h.getD 5 0) f,
   add32 (h.getD 6 0) g, add32 (h.getD 7 0) hh]

/-- SHA-256 of a byte list: the eight 32-bit hash words. -/
def hash (msg : List Nat) : List Nat :=
  (blocks (pad msg)).foldl compress H0

def hexDigit (n : Nat) : Char :=
  "0123456789abcdef".data.getD n '0'

def hex32 (x : Nat) : List Char :=
  [hexDigit (x >>> 28 % 16), hexDigit (x >>> 24 % 16), hexDigit (x >>> 20 % 16),
   hexDigit (x >>> 16 % 16), hexDigit (x >>> 12 % 16), hexDigit (x >>> 8 % 16),
   hexDigit (x >>> 4 % 16), hexDigit (x % 16)]

/-- UTF-8 encoding of one character (Python `str.encode()`). -/
def utf8Char (c : Char) : List Nat :=
  let n := c.toNat
  if n < 0x80 then [n]
  else if n < 0x800 then
    [0xC0 ||| (n >>> 6), 0x80 ||| (n &&& 0x3F)]
  else if n < 0x10000 then
    [0xE0 ||| (n >>> 12), 0x80 ||| ((n >>> 6) &&& 0x3F), 0x80 ||| (n &&& 0x3F)]
  else
    [0xF0 ||| (n >>> 18), 0x80 ||| ((n >>> 12) &&& 0x3F),
     0x80 ||| ((n >>> 6) &&& 0x3F), 0x80 ||| (n &&& 0x3F)]

/-- UTF-8 bytes of a string (Python `s.encode()`). -/
def utf8 (s : String) : List Nat :=
  s.data.flatMap utf8Char

end SHA256

/-- `hashlib.sha256(s.encode()).hexdigest()`. -/
def sha256hex (s : String) : String :=
  ⟨(SHA256.hash (SHA256.utf8 s)).flatMap SHA256.hex32⟩

/-- Sanity anchor: the NIST test vector for "abc". -/
theorem sha256hex_abc :
    sha256hex "abc" =
      "ba7816bf8f01cfea414140de5dae2223b00361a396177a9cb410ff61f20015ad" := by
  decide

/-! ## Data model (`backend/platforms/model.py`) -/

/-- `PlatformType` enum. -/
inductive PlatformType
  | meta
  | google
  | tiktok
  | instagram
deriving DecidableEq, Repr

/-- The `.value` of the `str`-valued enum member. -/
def PlatformType.value : PlatformType → String
  | .meta => "meta"
  | .google => "google"
  | .tiktok => "tiktok"
  | .instagram => "instagram"

/-- The `raw_data` payload. The source keeps the upstream dict and stores
`json.dumps(...)` of it; the claims never inspect its contents, so it is
modelled as a tagged value: the Google scraper builds
`{"advertiser_name": …, "variant": …}` (`googleVariant`), anything else is
carried opaquely. -/
inductive RawData
  | googleVariant (advertiser_name : String) (content_url : String)
  | opaquePayload (s : String)
deriving DecidableEq, Repr

/-- `PlatformAd` (pydantic model). Optional fields are `Option`; dates and
timestamps are abstract `Nat` instants. -/
structure PlatformAd where
  source_id : String
  platform : PlatformType
  format : String
  advertiser_name : String
  advertiser_handle : Option String := none
  thumbnail_url : String
  preview_url : Option String := none
  media_type : String
  ad_copy : Option String := none
  cta_text : Option String := none
  likes : Option Nat := none
  comments : Option Nat := none
  shares : Option Nat := none
  start_date : Option Nat := none
  end_date : Option Nat := none
  tags : List String := []
  landing_page_url : Option String := none
  domain : String := ""
  raw_data : RawData := .opaquePayload ""
  creative_id : Option String := none
  brand_id : Option String := none
deriving DecidableEq, Repr

/-- Python truthiness fallback `a or b` on optional strings
(`None` and `""` are falsy). -/
def pyOrOpt (a b : Option String) : Option String :=
  match a with
  | some s => if s = "" then b else some s
  | none => b

/-- Python `a or b` on strings. -/
def pyOr (a b : String) : String :=
  if a = "" then b else a

/-- `opt.get(…, "")`-style read of an optional string. -/
def optStr (o : Option String) : String := o.getD ""

/-! ## Google scraper pure helpers (`backend/platforms/google_scraper.py`) -/

/-- `BLOCKED_DOMAINS` (lines 25-30). -/
def BLOCKED_DOMAINS : List String :=
  ["naver.", "kakao.", "facebook.", "instagram."]

/-- `is_blocked_url` (lines 33-36): empty URLs are not blocked; otherwise
any blocked fragment occurring anywhere in the lowercased URL blocks it. -/
def is_blocked_url (url : String) : Bool :=
  if url = "" then false
  else BLOCKED_DOMAINS.any (fun d => strContains (pyLower url) d)

/-- `make_source_id` (lines 39-41). -/
def make_source_id (advertiser_name content_url : String) : String :=
  strTake (sha256hex ("google:" ++ advertiser_name ++ ":" ++ content_url)) 16

/-- Python `s.replace("www.", "")`: remove every (non-overlapping,
left-to-right) occurrence of `www.`; also models SQL
`REPLACE(domain, 'www.', '')`. -/
def removeWWWList : List Char → List Char
  | 'w' :: 'w' :: 'w' :: '.' :: rest => removeWWWList rest
  | c :: rest => c :: removeWWWList rest
  | [] => []

def removeWWW (s : String) : String := ⟨removeWWWList s.data⟩

/-- Character class `[a-zA-Z0-9_-]` of the YouTube-ID regexes. -/
def ytClass (c : Char) : Bool :=
  c.isAlphanum || c = '_' || c = '-'

/-- `([a-zA-Z0-9_-]{11})`: exactly the next 11 characters, all in class. -/
def grab11 (l : List Char) : Option (List Char) :=
  let cs := l.take 11
  if cs.length = 11 && cs.all ytClass then some cs else none

/-- `re.search` for a literal followed by 11 class characters: leftmost
position where the whole pattern matches. -/
def searchLit11 (lit : List Char) : List Char → Option (List Char)
  | [] => none
  | c :: tl =>
    match (if lit.isPrefixOf (c :: tl) then grab11 ((c :: tl).drop lit.length)
           else none) with
    | some v => some v
    | none => searchLit11 lit tl

/-- `re.search(r'[?&]video_id=([a-zA-Z0-9_-]{11})', …)`. -/
def searchVideoIdParam : List Char → Option (List Char)
  | [] => none
  | c :: tl =>
    match (if (c = '?' || c = '&') && ("video_id=".data.isPrefixOf tl)
           then grab11 (tl.drop 9) else none) with
    | some v => some v
    | none => searchVideoIdParam tl

/-- `_extract_youtube_video_id` (lines 81-105): the five URL shapes tried
in source order. -/
def extract_youtube_video_id (url : String) : Option String :=
  if url = "" then none
  else
    (((((searchLit11 "ytimg.com/vi/".data url.data).orElse
        (fun _ => searchLit11 "youtube.com/watch?v=".data url.data)).orElse
        (fun _ => searchLit11 "youtube.com/embed/".data url.data)).orElse
        (fun _ => searchLit11 "youtu.be/".data url.data)).orElse
        (fun _ => searchVideoIdParam url.data)).map (fun l => (⟨l⟩ : String))

/-- `re.match(r'https?://(?:www\.)?([^/]+)', landing_url)`: the scheme
prefix. `https?` only ever matches the literal `http://` or `https://`
at the start of the string. -/
def stripScheme (l : String) : Option (List Char) :=
  if strStartsWith l "https://" then some (l.data.drop 8)
  else if strStartsWith l "http://" then some (l.data.drop 7)
  else none

/-- The character class `[^/]` of the host capture group. -/
def notSlash (c : Char) : Bool := c ≠ '/'

/-- The `domain` derivation duplicated at lines 514-518 and 566-571:
`m = re.match(r'https?://(?:www\.)?([^/]+)', landing_url)`;
`domain = m.group(1) if m else ""`. The optional `www.` group backtracks
when nothing non-`/` follows it, exactly as the regex engine does. -/
def extract_domain (landing_url : String) : String :=
  if landing_url = "" then ""
  else
    match stripScheme landing_url with
    | none => ""
    | some a =>
      let afterW :=
        if "www.".data.isPrefixOf a && !((a.drop 4).takeWhile notSlash).isEmpty
        then a.drop 4 else a
      let host := afterW.takeWhile notSlash
      if host.isEmpty then "" else (⟨host⟩ : String)

/-- One display variant as assembled by `collect_all_variants` /
`_collect_variants_from_frames` (the dict consumed by
`variant_to_platform_ad`; absent keys read through `.get` defaults). -/
structure Variant where
  content_url : String := ""
  anchor_href : Option String := none
  is_video : Bool := false
  is_text : Bool := false
  ad_copy_text : Option String := none
  video_url : Option String := none
  thumbnail_url : Option String := none
  youtube_video_id : Option String := none
deriving DecidableEq, Repr

/-- URL keywords of the video heuristic (lines 539-543). -/
def VIDEO_URL_KEYWORDS : List String :=
  ["youtube.com", "youtu.be", "ytimg.com",
   "youtube_vertical_player", "youtube_player", "video_player"]

/-- Video classification of a non-text variant (lines 539-544):
the JS `is_video` hint OR a URL keyword in the lowercased content URL. -/
def variantIsVideo (v : Variant) : Bool :=
  v.is_video ||
    VIDEO_URL_KEYWORDS.any (fun k => strContains (pyLower v.content_url) k)

/-- YouTube-ID recovery (lines 546-552): the variant's own
`youtube_video_id` if truthy, else `_extract_youtube_video_id` over
`content_url`, `thumbnail_url`, `video_url` in that order. -/
def recoveredVideoId (v : Variant) : Option String :=
  match v.youtube_video_id with
  | some vid =>
    if vid = "" then
      ((extract_youtube_video_id v.content_url).orElse
        (fun _ => extract_youtube_video_id (optStr v.thumbnail_url))).orElse
        (fun _ => extract_youtube_video_id (optStr v.video_url))
    else some vid
  | none =>
    ((extract_youtube_video_id v.content_url).orElse
      (fun _ => extract_youtube_video_id (optStr v.thumbnail_url))).orElse
      (fun _ => extract_youtube_video_id (optStr v.video_url))

/-- `variant_to_platform_ad` (lines 500-584). -/
def variant_to_platform_ad (advertiser_name : String) (v : Variant)
    (landing_url : String) : PlatformAd :=
  if v.is_text then
    -- text-ad branch (lines 503-532)
    let ad_copy_text := optStr v.ad_copy_text
    let content_url := v.content_url
    let realImage := content_url ≠ "" && !strStartsWith content_url "text_ad:"
    let source_id :=
      if realImage then make_source_id advertiser_name content_url
      else
        strTake (sha256hex
          ("google:" ++ "text:" ++ advertiser_name ++ ":" ++
            strTake ad_copy_text 100)) 16
    { source_id := source_id
      platform := .google
      format := "text"
      advertiser_name := advertiser_name
      thumbnail_url := if realImage then content_url else ""
      preview_url := none
      media_type := "text"
      ad_copy := some ad_copy_text
      landing_page_url := if landing_url = "" then none else some landing_url
      domain := extract_domain landing_url
      raw_data := .googleVariant advertiser_name v.content_url }
  else
    -- image/video branch (lines 534-584)
    let content_url := v.content_url
    let is_video := variantIsVideo v
    let media_type := if is_video then "video" else "image"
    let video_id := recoveredVideoId v
    let thumbnail_url :=
      match video_id with
      | some vid =>
        if is_video then "https://i.ytimg.com/vi/" ++ vid ++ "/maxresdefault.jpg"
        else pyOr content_url ""
      | none =>
        if is_video then pyOr (optStr v.thumbnail_url) (pyOr content_url "")
        else pyOr content_url ""
    let preview_url :=
      match video_id with
      | some vid =>
        if is_video then some ("https://www.youtube.com/watch?v=" ++ vid)
        else (if content_url = "" then none else some content_url)
      | none =>
        if is_video then
          (let vu := pyOr (optStr v.video_url) content_url
           if vu = "" then none else some vu)
        else (if content_url = "" then none else some content_url)
    { source_id := make_source_id advertiser_name content_url
      platform := .google
      format := media_type
      advertiser_name := advertiser_name
      thumbnail_url := thumbnail_url
      preview_url := preview_url
      media_type := media_type
      landing_page_url := if landing_url = "" then none else some landing_url
      domain := extract_domain landing_url
      raw_data := .googleVariant advertiser_name v.content_url }

/-- Landing-URL resolution for one variant of a detail page in
`scrape_google_ads_by_domain` (lines 1046-1081, success path of the
browser round-trips): sadbundle `adurl=` result first, then the variant's
anchor, then the page-common landing URL; every candidate is discarded
when `is_blocked_url` holds. `sadbundle_landing` stands for what
`get_landing_from_sadbundle` returned and `page_landing` for what
`_extract_landing_url` returned. -/
def resolve_landing_url (content_url : String) (sadbundle_landing : String)
    (anchor_href : Option String) (page_landing : String) : String :=
  let pl := if is_blocked_url page_landing then "" else page_landing
  let l1 :=
    if strContains content_url "sadbundle" then
      (if is_blocked_url sadbundle_landing then "" else sadbundle_landing)
    else ""
  let l2 :=
    if l1 = "" then
      (let a := optStr anchor_href
       if a ≠ "" && !is_blocked_url a then a else "")
    else l1
  if l2 = "" then pl else l2

/-! ## Ad Store (`backend/platforms/scrape_worker.py` `upsert_ads_batch`
over the `ads` table of `backend/migrate.py`, transaction semantics from
`backend/conn.py` `get_db`). -/

/-- One row of the `ads` table (the columns `upsert_ads_batch` touches or
leaves alone; `id` is positional). `platform` is stored as the enum's
string value, exactly as `ad.platform.value` is bound. -/
structure Row where
  source_id : Option String
  platform : String
  format : String
  advertiser_name : String
  advertiser_handle : Option String
  advertiser_avatar_url : Option String := none
  thumbnail_url : String
  preview_url : Option String
  media_type : String
  ad_copy : Option String
  cta_text : Option String
  likes : Option Nat := none
  comments : Option Nat := none
  shares : Option Nat := none
  start_date : Option Nat
  end_date : Option Nat
  tags : List String
  landing_page_url : Option String
  raw_data : Option RawData
  domain : Option String
  creative_id : Option String
  brand_id : Option String
  created_at : Nat
  updated_at : Option Nat
  saved_at : Option Nat
deriving DecidableEq, Repr

/-- The `ON CONFLICT (source_id, platform)` collision test. A `NULL`
`source_id` never conflicts (Postgres treats NULLs as distinct). -/
def keyMatches (r : Row) (ad : PlatformAd) : Bool :=
  r.source_id == some ad.source_id && r.platform == ad.platform.value

/-- The row built by the `INSERT` arm (lines 107-151): explicit columns
from the ad, `saved_at = NOW()`, and the schema defaults
`created_at DEFAULT NOW()`, `updated_at DEFAULT NOW()` for the columns the
statement does not list. -/
def insertRow (now : Nat) (effBrand : Option String) (ad : PlatformAd) : Row where
  source_id := some ad.source_id
  platform := ad.platform.value
  format := ad.format
  advertiser_name := ad.advertiser_name
  advertiser_handle := ad.advertiser_handle
  thumbnail_url := ad.thumbnail_url
  preview_url := ad.preview_url
  media_type := ad.media_type
  ad_copy := ad.ad_copy
  cta_text := ad.cta_text
  start_date := ad.start_date
  end_date := ad.end_date
  tags := ad.tags
  landing_page_url := ad.landing_page_url
  raw_data := some ad.raw_data
  domain := some ad.domain
  creative_id := ad.creative_id
  brand_id := effBrand
  created_at := now
  updated_at := some now
  saved_at := some now

/-- The `DO UPDATE SET` arm (lines 124-137): the listed mutable columns
are overwritten, `creative_id`/`brand_id` are `COALESCE`d with the stored
value, `updated_at`/`saved_at` become `NOW()`, everything else (notably
`created_at`, `format`, `media_type`, `start_date`, `tags`) is untouched. -/
def updateRowOnConflict (now : Nat) (effBrand : Option String) (r : Row)
    (ad : PlatformAd) : Row :=
  { r with
    advertiser_name := ad.advertiser_name
    thumbnail_url := ad.thumbnail_url
    preview_url := ad.preview_url
    ad_copy := ad.ad_copy
    cta_text := ad.cta_text
    end_date := ad.end_date
    raw_data := some ad.raw_data
    landing_page_url := ad.landing_page_url
    domain := some ad.domain
    creative_id := ad.creative_id.orElse (fun _ => r.creative_id)
    brand_id := effBrand.orElse (fun _ => r.brand_id)
    updated_at := some now
    saved_at := some now }

/-- One `INSERT … ON CONFLICT … RETURNING (xmax = 0) AS is_new`:
the first key-matching row is updated in place, otherwise a fresh row is
appended; the boolean is the statement's `is_new`. -/
def upsertRow (now : Nat) (effBrand : Option String) (ad : PlatformAd) :
    List Row → List Row × Bool
  | [] => ([insertRow now effBrand ad], true)
  | r :: rs =>
    if keyMatches r ad then (updateRowOnConflict now effBrand r ad :: rs, false)
    else
      let res := upsertRow now effBrand ad rs
      (r :: res.1, res.2)

/-- The dict `{"new": …, "updated": …, "total": …}` returned by
`upsert_ads_batch`. -/
structure UpsertCounts where
  new : Nat
  updated : Nat
  total : Nat
deriving DecidableEq, Repr

/-- The per-ad loop of `upsert_ads_batch` (lines 104-156). -/
def upsertBatchGo (now : Nat) (brand_id : Option String) :
    List PlatformAd → List Row → Nat → Nat → List Row × Nat × Nat
  | [], db, n, u => (db, n, u)
  | ad :: rest, db, n, u =>
    let res := upsertRow now (pyOrOpt brand_id ad.brand_id) ad db
    if res.2 then upsertBatchGo now brand_id rest res.1 (n + 1) u
    else upsertBatchGo now brand_id rest res.1 n (u + 1)

/-- `upsert_ads_batch(ads, brand_id)` (lines 89-167) on the success path
(no row raises): the committed table and the returned counts. -/
def upsert_ads_batch (now : Nat) (brand_id : Option String)
    (ads : List PlatformAd) (db : List Row) : List Row × UpsertCounts :=
  let res := upsertBatchGo now brand_id ads db 0 0
  (res.1, ⟨res.2.1, res.2.2, res.2.1 + res.2.2⟩)

/-- `VARCHAR` length limits of the `ads` schema (`backend/migrate.py`
lines 34-57): a bound value longer than the declared width makes the
`INSERT` raise. This is the concrete per-row failure mode used to study
the transaction semantics. -/
def rowRaises (ad : PlatformAd) : Bool :=
  ad.platform.value.length > 20 || ad.format.length > 20 ||
  ad.advertiser_name.length > 255 || (optStr ad.advertiser_handle).length > 255 ||
  (optStr ad.cta_text).length > 255 || ad.source_id.length > 255 ||
  ad.domain.length > 255 || (optStr ad.creative_id).length > 255

/-- The loop of `upsert_ads_batch` with the failure mode: `none` means a
row raised mid-batch. -/
def upsertBatchTxGo (now : Nat) (brand_id : Option String) :
    List PlatformAd → List Row → Nat → Nat → Option (List Row × Nat × Nat)
  | [], db, n, u => some (db, n, u)
  | ad :: rest, db, n, u =>
    if rowRaises ad then none
    else
      let res := upsertRow now (pyOrOpt brand_id ad.brand_id) ad db
      if res.2 then upsertBatchTxGo now brand_id rest res.1 (n + 1) u
      else upsertBatchTxGo now brand_id rest res.1 n (u + 1)

/-- `upsert_ads_batch` composed with `get_db` (`backend/conn.py` lines
27-39): the whole batch is one transaction — `conn.commit()` after the
loop, `conn.rollback()` and re-raise on any exception inside it. Returns
the committed table and the counts (`none` when the call raised: the
caller sees the exception, not a result dict). -/
def upsert_ads_batch_tx (now : Nat) (brand_id : Option String)
    (ads : List PlatformAd) (db : List Row) : List Row × Option UpsertCounts :=
  match upsertBatchTxGo now brand_id ads db 0 0 with
  | some (db', n, u) => (db', some ⟨n, u, n + u⟩)
  | none => (db, none)

/-- `get_existing_creative_ids(domain)` (`google_scraper.py` lines 50-64):
`bare_domain = domain.replace("www.", "")`, then
`SELECT creative_id FROM ads WHERE platform = 'google' AND creative_id IS
NOT NULL AND (REPLACE(domain, 'www.', '') = bare OR (domain IS NULL AND
landing_page_url LIKE '%bare%'))`. The result set is modelled as the list
of selected `creative_id` values. -/
def get_existing_creative_ids (domain : String) (db : List Row) : List String :=
  let bare := removeWWW domain
  (db.filter (fun r =>
    r.platform == "google" && r.creative_id.isSome &&
      ((match r.domain with
        | some d => removeWWW d == bare
        | none => false) ||
       (r.domain == none &&
        match r.landing_page_url with
        | some l => strContains l bare
        | none => false)))).filterMap (·.creative_id)

/-! ## Batched streaming of `scrape_google_ads_by_domain`
(`google_scraper.py` lines 973-1126). -/

/-- `BATCH_SIZE = 50` (line 867). -/
def BATCH_SIZE : Nat := 50

/-- `if not unlimited and total_collected >= max_results` (line 1106). -/
def hitLimit (maxResults : Option Nat) (total : Nat) : Bool :=
  match maxResults with
  | none => false
  | some m => total ≥ m

/-- The final flush (lines 1115-1118): the pending buffer is emitted
on exit when a callback is installed and the buffer is non-empty. -/
def finalFlush (cb : Bool) (buf : List PlatformAd) : List (List PlatformAd) :=
  if cb && !buf.isEmpty then [buf] else []

/-- The per-ad accumulation of the detail-page loop (lines 1093-1118):
`seen_source_ids` dedups; with a callback, ads go to `batch_buffer`,
flushed as a batch whenever it reaches `BATCH_SIZE` and once more on
exit; without a callback they go to `platform_ads`. `max_results` breaks
out of both loops right after a collection. Returns the emitted batches
(in order) and the final `platform_ads`. -/
def collectGo (cb : Bool) (maxResults : Option Nat) :
    List PlatformAd → List String → List PlatformAd → List PlatformAd →
      Nat → List (List PlatformAd) × List PlatformAd
  | [], _, buf, acc, _ => (finalFlush cb buf, acc)
  | ad :: rest, seen, buf, acc, total =>
    if seen.contains ad.source_id then
      collectGo cb maxResults rest seen buf acc total
    else
      let seen' := ad.source_id :: seen
      let total' := total + 1
      if cb then
        let buf' := buf ++ [ad]
        if buf'.length ≥ BATCH_SIZE then
          if hitLimit maxResults total' then ([buf'], acc)
          else
            let res := collectGo cb maxResults rest seen' [] acc total'
            (buf' :: res.1, res.2)
        else
          if hitLimit maxResults total' then (finalFlush cb buf', acc)
          else collectGo cb maxResults rest seen' buf' acc total'
      else
        let acc' := acc ++ [ad]
        if hitLimit maxResults total' then ([], acc')
        else collectGo cb maxResults rest seen' buf acc' total'

/-- The collection phase of `scrape_google_ads_by_domain` on the stream of
candidate ads (each `variant_to_platform_ad` result, in page order):
emitted batches and the function's return value. With a callback the
source returns the untouched (empty) `platform_ads` (lines 1124-1126). -/
def scrape_collect (cb : Bool) (maxResults : Option Nat)
    (cands : List PlatformAd) : List (List PlatformAd) × List PlatformAd :=
  collectGo cb maxResults cands [] [] [] 0

/-! ## Store lemmas -/

/-- Some row of the table collides with the ad's `(source_id, platform)`. -/
def dbHasKey (db : List Row) (ad : PlatformAd) : Bool :=
  db.any (fun r => keyMatches r ad)

theorem keyMatches_update (now : Nat) (eb : Option String) (r : Row)
    (ad ad' : PlatformAd) :
    keyMatches (updateRowOnConflict now eb r ad) ad' = keyMatches r ad' := by
  simp [keyMatches, updateRowOnConflict]

theorem keyMatches_insert_self (now : Nat) (eb : Option String)
    (ad : PlatformAd) : keyMatches (insertRow now eb ad) ad = true := by
  simp [keyMatches, insertRow]

theorem upsertRow_snd_of_hasKey (now : Nat) (eb : Option String)
    (ad : PlatformAd) (db : List Row) (h : dbHasKey db ad = true) :
    (upsertRow now eb ad db).2 = false := by
  induction db with
  | nil => simp [dbHasKey] at h
  | cons r rs ih =>
    simp only [dbHasKey, List.any_cons, Bool.or_eq_true] at h
    by_cases hk : keyMatches r ad
    · simp [upsertRow, hk]
    · rcases h with h | h
      · exact absurd h hk
      · simp [upsertRow, hk, ih h]

theorem upsertRow_length (now : Nat) (eb : Option String) (ad : PlatformAd)
    (db : List Row) :
    (upsertRow now eb ad db).1.length =
      if dbHasKey db ad then db.length else db.length + 1 := by
  induction db with
  | nil => simp [upsertRow, dbHasKey]
  | cons r rs ih =>
    have ih' := ih
    simp only [dbHasKey] at ih'
    cases hk : keyMatches r ad with
    | true => simp [upsertRow, hk, dbHasKey]
    | false =>
      cases h2 : rs.any (fun r => keyMatches r ad) with
      | true =>
        simp [upsertRow, hk, dbHasKey, List.any_cons, h2, ih']
      | false =>
        simp [upsertRow, hk, dbHasKey, List.any_cons, h2, ih']

theorem upsertRow_hasKey_self (now : Nat) (eb : Option String)
    (ad : PlatformAd) (db : List Row) :
    dbHasKey (upsertRow now eb ad db).1 ad = true := by
  induction db with
  | nil => simp [upsertRow, dbHasKey, keyMatches_insert_self]
  | cons r rs ih =>
    cases hk : keyMatches r ad with
    | true => simp [upsertRow, hk, dbHasKey, List.any_cons, keyMatches_update]
    | false =>
      simp only [upsertRow, hk, Bool.false_eq_true, if_false, dbHasKey,
        List.any_cons, Bool.or_eq_true]
      exact Or.inr ih

theorem upsertRow_preserves_key (now : Nat) (eb : Option String)
    (ad ad' : PlatformAd) (db : List Row) (h : dbHasKey db ad' = true) :
    dbHasKey (upsertRow now eb ad db).1 ad' = true := by
  induction db with
  | nil => simp [dbHasKey] at h
  | cons r rs ih =>
    simp only [dbHasKey, List.any_cons, Bool.or_eq_true] at h
    cases hk : keyMatches r ad with
    | true =>
      simp only [upsertRow, hk, if_true, dbHasKey, List.any_cons,
        Bool.or_eq_true, keyMatches_update]
      exact h
    | false =>
      simp only [upsertRow, hk, Bool.false_eq_true, if_false, dbHasKey,
        List.any_cons, Bool.or_eq_true]
      rcases h with h | h
      · exact Or.inl h
      · exact Or.inr (ih h)

theorem upsertBatchGo_preserves_key (now : Nat) (bp : Option String)
    (ads : List PlatformAd) (ad' : PlatformAd) :
    ∀ (db : List Row) (n u : Nat), dbHasKey db ad' = true →
      dbHasKey (upsertBatchGo now bp ads db n u).1 ad' = true := by
  induction ads with
  | nil => intro db n u h; simpa [upsertBatchGo] using h
  | cons ad rest ih =>
    intro db n u h
    simp only [upsertBatchGo]
    set res := upsertRow now (pyOrOpt bp ad.brand_id) ad db with hres
    have hkey : dbHasKey res.1 ad' = true :=
      upsertRow_preserves_key _ _ _ _ _ h
    by_cases hb : res.2 <;> simp [hb, ih _ _ _ hkey]

theorem upsertBatchGo_establishes_keys (now : Nat) (bp : Option String)
    (ads : List PlatformAd) :
    ∀ (db : List Row) (n u : Nat) (ad : PlatformAd), ad ∈ ads →
      dbHasKey (upsertBatchGo now bp ads db n u).1 ad = true := by
  induction ads with
  | nil => intro db n u ad h; cases h
  | cons a rest ih =>
    intro db n u ad h
    simp only [upsertBatchGo]
    set res := upsertRow now (pyOrOpt bp a.brand_id) a db with hres
    rcases List.mem_cons.mp h with rfl | hmem
    · have hkey : dbHasKey res.1 ad = true := upsertRow_hasKey_self _ _ _ _
      by_cases hb : res.2 <;>
        simp [hb, upsertBatchGo_preserves_key _ _ _ _ _ _ _ hkey]
    · by_cases hb : res.2 <;> simp [hb, ih _ _ _ _ hmem]

theorem upsertBatchGo_all_conflicts (now : Nat) (bp : Option String)
    (ads : List PlatformAd) :
    ∀ (db : List Row) (n u : Nat), (∀ ad ∈ ads, dbHasKey db ad = true) →
      (upsertBatchGo now bp ads db n u).2.1 = n ∧
      (upsertBatchGo now bp ads db n u).2.2 = u + ads.length ∧
      (upsertBatchGo now bp ads db n u).1.length = db.length := by
  induction ads with
  | nil => intro db n u _; simp [upsertBatchGo]
  | cons a rest ih =>
    intro db n u h
    have ha : dbHasKey db a = true := h a (List.mem_cons_self a rest)
    simp only [upsertBatchGo]
    set res := upsertRow now (pyOrOpt bp a.brand_id) a db with hres
    have hsnd : res.2 = false := upsertRow_snd_of_hasKey _ _ _ _ ha
    have hlen : res.1.length = db.length := by
      rw [hres, upsertRow_length, if_pos ha]
    have hrest : ∀ ad ∈ rest, dbHasKey res.1 ad = true := fun ad hm =>
      upsertRow_preserves_key _ _ _ _ _ (h ad (List.mem_cons_of_mem _ hm))
    rcases ih res.1 n (u + 1) hrest with ⟨h1, h2, h3⟩
    refine ⟨?_, ?_, ?_⟩ <;> simp [hsnd, h1, h2, h3, hlen, List.length_cons]
    omega

/-- **C1.** For every batch `A`, upserting `A` twice in succession leaves
the number of rows in `ads` unchanged after the second call, and the
second call reports `new = 0` and `updated = |A|`. (The timestamps and
the optional `brand_id` argument of the two calls may even differ.) -/
theorem upsert_batch_idempotent (t1 t2 : Nat) (bp1 bp2 : Option String)
    (ads : List PlatformAd) (db : List Row) :
    (upsert_ads_batch t2 bp2 ads (upsert_ads_batch t1 bp1 ads db).1).1.length
        = (upsert_ads_batch t1 bp1 ads db).1.length ∧
    (upsert_ads_batch t2 bp2 ads (upsert_ads_batch t1 bp1 ads db).1).2.new
        = 0 ∧
    (upsert_ads_batch t2 bp2 ads (upsert_ads_batch t1 bp1 ads db).1).2.updated
        = ads.length := by
  have hkeys : ∀ ad ∈ ads,
      dbHasKey (upsert_ads_batch t1 bp1 ads db).1 ad = true := by
    intro ad hm
    simpa [upsert_ads_batch] using
      upsertBatchGo_establishes_keys t1 bp1 ads db 0 0 ad hm
  have h := upsertBatchGo_all_conflicts t2 bp2 ads
    (upsert_ads_batch t1 bp1 ads db).1 0 0 hkeys
  refine ⟨?_, ?_, ?_⟩
  · have h3 := h.2.2
    simp only [upsert_ads_batch] at h3 ⊢
    exact h3
  · have h1 := h.1
    simp only [upsert_ads_batch] at h1 ⊢
    exact h1
  · have h2 := h.2.1
    simp only [upsert_ads_batch] at h2 ⊢
    simpa using h2

/-- **C2.** An upsert that collides on `(source_id, platform)` rewrites
the first colliding row in place: its `created_at` is untouched, a
non-null `creative_id` / `brand_id` survives (never overwritten with
null), and `updated_at` / `saved_at` are set to the upsert instant. -/
theorem upsert_conflict_frame (now : Nat) (eb : Option String)
    (ad : PlatformAd) (pre post : List Row) (r : Row)
    (hpre : ∀ x ∈ pre, keyMatches x ad = false)
    (hr : keyMatches r ad = true) :
    ∃ r', (upsertRow now eb ad (pre ++ r :: post)).1 = pre ++ r' :: post ∧
      r'.created_at = r.created_at ∧
      (∀ c, r.creative_id = some c → ∃ c', r'.creative_id = some c') ∧
      (∀ b, r.brand_id = some b → ∃ b', r'.brand_id = some b') ∧
      r'.updated_at = some now ∧ r'.saved_at = some now := by
  induction pre with
  | nil =>
    refine ⟨updateRowOnConflict now eb r ad, ?_, ?_, ?_, ?_, ?_, ?_⟩
    · simp [upsertRow, hr]
    · simp [updateRowOnConflict]
    · intro c hc
      cases hacid : ad.creative_id with
      | some a => exact ⟨a, by simp [updateRowOnConflict, hacid, Option.orElse]⟩
      | none => exact ⟨c, by simp [updateRowOnConflict, hacid, Option.orElse, hc]⟩
    · intro b hb
      cases heb : eb with
      | some a => exact ⟨a, by simp [updateRowOnConflict, heb, Option.orElse]⟩
      | none => exact ⟨b, by simp [updateRowOnConflict, heb, Option.orElse, hb]⟩
    · simp [updateRowOnConflict]
    · simp [updateRowOnConflict]
  | cons x pre' ih =>
    have hx : keyMatches x ad = false := hpre x (List.mem_cons_self x pre')
    have hpre' : ∀ y ∈ pre', keyMatches y ad = false := fun y hy =>
      hpre y (List.mem_cons_of_mem _ hy)
    rcases ih hpre' with ⟨r', heq, h1, h2, h3, h4, h5⟩
    refine ⟨r', ?_, h1, h2, h3, h4, h5⟩
    simp only [List.cons_append, upsertRow, hx, Bool.false_eq_true, if_false]
    simp [heq]

/-- Sample ad colliding with `exRowC2` on `(source_id, platform)`. -/
def exAdC2 : PlatformAd :=
  { source_id := "s1", platform := .google, format := "image",
    advertiser_name := "Acme", thumbnail_url := "t", media_type := "image" }

/-- Sample stored row carrying non-null `creative_id` and `brand_id`. -/
def exRowC2 : Row :=
  { source_id := some "s1", platform := "google", format := "image",
    advertiser_name := "Old", advertiser_handle := none,
    thumbnail_url := "t0", preview_url := none, media_type := "image",
    ad_copy := none, cta_text := none, start_date := none, end_date := none,
    tags := [], landing_page_url := none, raw_data := none, domain := none,
    creative_id := some "CR1", brand_id := some "b1", created_at := 7,
    updated_at := some 7, saved_at := some 7 }

/-- Witness for C2 at a concrete collision. -/
theorem upsert_conflict_frame_witness :
    ∃ r', (upsertRow 42 none exAdC2 ([] ++ exRowC2 :: [])).1
        = [] ++ r' :: [] ∧
      r'.created_at = exRowC2.created_at ∧
      (∀ c, exRowC2.creative_id = some c → ∃ c', r'.creative_id = some c') ∧
      (∀ b, exRowC2.brand_id = some b → ∃ b', r'.brand_id = some b') ∧
      r'.updated_at = some 42 ∧ r'.saved_at = some 42 :=
  upsert_conflict_frame 42 none exAdC2 [] [] exRowC2 (by simp) (by decide)

/-! ## C3: Google source-id derivation -/

theorem google_text_tag_concat : ("google:" ++ "text:" : String) = "google:text:" :=
  rfl

/-- **C3.** Image/video variants derive
`sha256("google:" + name + ":" + content_url)[:16]`; text ads with a
synthetic `text_ad:` content URL derive
`sha256("google:text:" + name + ":" + text[:100])[:16]`; and for
image/video variants the derivation depends only on the advertiser name
and content URL (deterministic). -/
theorem google_source_id_derivation (name : String) (v : Variant)
    (landing : String) :
    (v.is_text = false →
      (variant_to_platform_ad name v landing).source_id
        = strTake (sha256hex ("google:" ++ name ++ ":" ++ v.content_url)) 16) ∧
    (v.is_text = true → strStartsWith v.content_url "text_ad:" = true →
      (variant_to_platform_ad name v landing).source_id
        = strTake (sha256hex
            ("google:text:" ++ name ++ ":" ++
              strTake (optStr v.ad_copy_text) 100)) 16) ∧
    (∀ (v' : Variant) (landing' : String),
      v.is_text = false → v'.is_text = false →
      v'.content_url = v.content_url →
      (variant_to_platform_ad name v' landing').source_id
        = (variant_to_platform_ad name v landing).source_id) := by
  refine ⟨?_, ?_, ?_⟩
  · intro h
    simp [variant_to_platform_ad, h, make_source_id]
  · intro h1 h2
    simp only [variant_to_platform_ad, h1, if_true, h2, Bool.not_true,
      Bool.and_false, Bool.false_eq_true, if_false]
    rw [google_text_tag_concat]
  · intro v' landing' h h' hc
    simp [variant_to_platform_ad, h, h', hc]

/-- Sample image variant. -/
def exVariantImg : Variant := { content_url := "https://cdn.example/img1" }

/-- Sample synthetic text-ad variant. -/
def exVariantText : Variant :=
  { content_url := "text_ad:QUJD", is_text := true,
    ad_copy_text := some "Buy now at Acme" }

/-- Witness for C3: both derivation branches at concrete variants. -/
theorem google_source_id_derivation_witness :
    (variant_to_platform_ad "Acme" exVariantImg "").source_id
        = strTake (sha256hex
            ("google:" ++ "Acme" ++ ":" ++ exVariantImg.content_url)) 16 ∧
    (variant_to_platform_ad "Acme" exVariantText "").source_id
        = strTake (sha256hex
            ("google:text:" ++ "Acme" ++ ":" ++
              strTake (optStr exVariantText.ad_copy_text) 100)) 16 :=
  ⟨(google_source_id_derivation "Acme" exVariantImg "").1 rfl,
   (google_source_id_derivation "Acme" exVariantText "").2.1 rfl (by decide)⟩

/-! ## C4 / C5: transaction semantics and absence of validation -/

theorem upsertBatchGo_counts_sum (now : Nat) (bp : Option String)
    (ads : List PlatformAd) :
    ∀ (db : List Row) (n u : Nat),
      (upsertBatchGo now bp ads db n u).2.1 +
        (upsertBatchGo now bp ads db n u).2.2 = n + u + ads.length := by
  induction ads with
  | nil => intro db n u; simp [upsertBatchGo]
  | cons a rest ih =>
    intro db n u
    simp only [upsertBatchGo]
    set res := upsertRow now (pyOrOpt bp a.brand_id) a db with hres
    by_cases hb : res.2 = true <;> simp [hb, ih] <;> omega

theorem txGo_none_iff (now : Nat) (bp : Option String)
    (ads : List PlatformAd) :
    ∀ (db : List Row) (n u : Nat),
      upsertBatchTxGo now bp ads db n u = none ↔
        ads.any rowRaises = true := by
  induction ads with
  | nil => intro db n u; simp [upsertBatchTxGo]
  | cons a rest ih =>
    intro db n u
    cases hr : rowRaises a with
    | true => simp [upsertBatchTxGo, hr]
    | false =>
      simp only [upsertBatchTxGo, hr, Bool.false_eq_true, if_false,
        List.any_cons, Bool.or_eq_true, Bool.false_eq_true, false_or]
      set res := upsertRow now (pyOrOpt bp a.brand_id) a db with hres
      by_cases hb : res.2 = true <;> simp [hb, ih]

theorem txGo_eq_go_of_no_raise (now : Nat) (bp : Option String)
    (ads : List PlatformAd) :
    ∀ (db : List Row) (n u : Nat), (∀ ad ∈ ads, rowRaises ad = false) →
      upsertBatchTxGo now bp ads db n u =
        some (upsertBatchGo now bp ads db n u) := by
  induction ads with
  | nil => intro db n u _; simp [upsertBatchTxGo, upsertBatchGo]
  | cons a rest ih =>
    intro db n u h
    have hr : rowRaises a = false := h a (List.mem_cons_self a rest)
    have hrest : ∀ ad ∈ rest, rowRaises ad = false := fun ad hm =>
      h ad (List.mem_cons_of_mem _ hm)
    simp only [upsertBatchTxGo, upsertBatchGo, hr, Bool.false_eq_true,
      if_false]
    set res := upsertRow now (pyOrOpt bp a.brand_id) a db with hres
    by_cases hb : res.2 = true <;> simp [hb, ih _ _ _ hrest]

/-- **C4 (amended).** `upsert_ads_batch` wrapped in `get_db` is
batch-atomic, not merely row-atomic: the call fails exactly when some row
of the batch raises; on failure the whole transaction is rolled back (the
table is exactly as before the call) and no counts are returned; on
success every row of the batch is counted. -/
theorem upsert_batch_is_batch_atomic (now : Nat) (bp : Option String)
    (ads : List PlatformAd) (db : List Row) :
    ((upsert_ads_batch_tx now bp ads db).2 = none ↔
        ads.any rowRaises = true) ∧
    ((upsert_ads_batch_tx now bp ads db).2 = none →
        (upsert_ads_batch_tx now bp ads db).1 = db) ∧
    (∀ c, (upsert_ads_batch_tx now bp ads db).2 = some c →
        c.new + c.updated = ads.length) := by
  refine ⟨?_, ?_, ?_⟩
  · cases htx : upsertBatchTxGo now bp ads db 0 0 with
    | none =>
      simp only [upsert_ads_batch_tx, htx]
      simpa using (txGo_none_iff now bp ads db 0 0).mp htx
    | some x =>
      simp only [upsert_ads_batch_tx, htx]
      constructor
      · intro h; cases h
      · intro h
        have := (txGo_none_iff now bp ads db 0 0).mpr h
        rw [htx] at this; cases this
  · intro h
    cases htx : upsertBatchTxGo now bp ads db 0 0 with
    | none => simp [upsert_ads_batch_tx, htx]
    | some x => simp [upsert_ads_batch_tx, htx] at h
  · intro c hc
    cases htx : upsertBatchTxGo now bp ads db 0 0 with
    | none => simp [upsert_ads_batch_tx, htx] at hc
    | some x =>
      have hnone : ¬ upsertBatchTxGo now bp ads db 0 0 = none := by
        simp [htx]
      have hany : ads.any rowRaises = false := by
        cases hv : ads.any rowRaises with
        | true => exact absurd ((txGo_none_iff now bp ads db 0 0).mpr hv) hnone
        | false => rfl
      have hno : ∀ ad ∈ ads, rowRaises ad = false := by
        simpa [List.any_eq_false] using hany
      have heq := txGo_eq_go_of_no_raise now bp ads db 0 0 hno
      rw [htx] at heq
      have hx : x = upsertBatchGo now bp ads db 0 0 := by
        injection heq
      simp only [upsert_ads_batch_tx, htx, hx] at hc
      have hsum := upsertBatchGo_counts_sum now bp ads db 0 0
      cases hc
      simpa using hsum

/-- An unremarkable, valid ad. -/
def exAdGood : PlatformAd :=
  { source_id := "good1", platform := .google, format := "image",
    advertiser_name := "Acme", thumbnail_url := "https://t/1",
    media_type := "image" }

/-- An ad whose `advertiser_name` exceeds the `VARCHAR(255)` width of the
`ads` schema, so its `INSERT` raises. -/
def exAdBad : PlatformAd :=
  { source_id := "bad1", platform := .google, format := "image",
    advertiser_name := ⟨List.replicate 256 'a'⟩,
    thumbnail_url := "https://t/2", media_type := "image" }

/-- **C4 (counterexample).** A batch whose second row raises: contrary to
the claim, the first (successful) row is NOT left committed — the
transaction rolls back to the original (empty) table — and no counts are
returned at all. -/
theorem upsert_batch_partial_commit_counterexample :
    rowRaises exAdGood = false ∧ rowRaises exAdBad = true ∧
    upsert_ads_batch_tx 5 none [exAdGood, exAdBad] [] = ([], none) := by
  refine ⟨by decide, by decide, by decide⟩

/-- Witness for C4 (amended) at concrete batches: rollback on the failing
batch, full counting on a succeeding one. -/
theorem upsert_batch_is_batch_atomic_witness :
    (upsert_ads_batch_tx 5 none [exAdGood, exAdBad] []).1 = [] ∧
    (⟨1, 0, 1⟩ : UpsertCounts).new + (⟨1, 0, 1⟩ : UpsertCounts).updated
      = [exAdGood].length :=
  ⟨(upsert_batch_is_batch_atomic 5 none [exAdGood, exAdBad] []).2.1
      (by decide),
   (upsert_batch_is_batch_atomic 7 none [exAdGood] []).2.2 ⟨1, 0, 1⟩
      (by decide)⟩

/-- An ad with empty `source_id` and empty `thumbnail_url` on a non-text
row — the fields C5 calls "missing". -/
def exAdEmptyFields : PlatformAd :=
  { source_id := "", platform := .google, format := "image",
    advertiser_name := "Acme", thumbnail_url := "",
    media_type := "image" }

/-- **C5 (counterexample).** The store performs no validation: the row
with empty `source_id` and empty `thumbnail_url` (non-text) is inserted
and counted as new, not rejected. -/
theorem store_validation_counterexample :
    exAdEmptyFields.source_id = "" ∧
    exAdEmptyFields.thumbnail_url = "" ∧
    exAdEmptyFields.media_type ≠ "text" ∧
    (upsert_ads_batch_tx 5 none [exAdEmptyFields] []).1.length = 1 ∧
    (upsert_ads_batch_tx 5 none [exAdEmptyFields] []).2
      = some ⟨1, 0, 1⟩ := by
  refine ⟨rfl, rfl, by decide, by decide, by decide⟩

/-- **C5 (amended).** `upsert_ads_batch` performs no precondition check on
`source_id` or `thumbnail_url`: in any batch whose rows satisfy the
schema's width constraints (which empty strings always do), every row —
including ones with empty `source_id` or empty `thumbnail_url` on
non-text ads — is upserted and counted as either new or updated; no row
is rejected. -/
theorem store_counts_every_row (now : Nat) (bp : Option String)
    (ads : List PlatformAd) (db : List Row)
    (h : ∀ ad ∈ ads, rowRaises ad = false) :
    (upsert_ads_batch_tx now bp ads db).2
        = some (upsert_ads_batch now bp ads db).2 ∧
    (upsert_ads_batch now bp ads db).2.new
        + (upsert_ads_batch now bp ads db).2.updated = ads.length := by
  have heq := txGo_eq_go_of_no_raise now bp ads db 0 0 h
  have hsum := upsertBatchGo_counts_sum now bp ads db 0 0
  constructor
  · simp [upsert_ads_batch_tx, upsert_ads_batch, heq]
  · simpa [upsert_ads_batch] using hsum

/-- Witness for C5 (amended): the empty-field row is counted. -/
theorem store_counts_every_row_witness :
    (upsert_ads_batch_tx 5 none [exAdEmptyFields] []).2
        = some (upsert_ads_batch 5 none [exAdEmptyFields] []).2 ∧
    (upsert_ads_batch 5 none [exAdEmptyFields] []).2.new
        + (upsert_ads_batch 5 none [exAdEmptyFields] []).2.updated
        = [exAdEmptyFields].length :=
  store_counts_every_row 5 none [exAdEmptyFields] [] (by
    intro ad h
    simp only [List.mem_singleton] at h
    subst h
    decide)

/-! ## C6: existing-creative-id query -/

/-- A row of the claim's counterexample: non-matching non-null `domain`,
landing page containing the queried domain. -/
def exRowC6 : Row :=
  { source_id := some "s9", platform := "google", format := "image",
    advertiser_name := "Other", advertiser_handle := none,
    thumbnail_url := "t", preview_url := none, media_type := "image",
    ad_copy := none, cta_text := none, start_date := none, end_date := none,
    tags := [], landing_page_url := some "https://acme.com/p",
    raw_data := none, domain := some "other.com",
    creative_id := some "CR1", brand_id := none, created_at := 1,
    updated_at := none, saved_at := none }

/-- **C6 (counterexample).** The claim's unconditional disjunction fails:
a google row whose `landing_page_url` contains the bare domain but whose
(non-null) `domain` does not match is NOT returned, because the source
guards the `LIKE` disjunct with `domain IS NULL`. -/
theorem get_existing_creative_ids_counterexample :
    exRowC6.platform = "google" ∧
    exRowC6.creative_id = some "CR1" ∧
    strContains (optStr exRowC6.landing_page_url) "acme.com" = true ∧
    get_existing_creative_ids "acme.com" [exRowC6] = [] := by
  refine ⟨rfl, rfl, by decide, by decide⟩

/-- **C6 (amended).** `get_existing_creative_ids(domain)` returns exactly
the non-null `creative_id` values of google-platform rows whose stored
`domain`, with every `www.` removed, equals the queried domain with every
`www.` removed — or whose `domain` IS NULL and whose `landing_page_url`
contains the bare domain as a substring. The landing-page disjunct
applies only to NULL-domain rows, and the platform is fixed to google. -/
theorem get_existing_creative_ids_spec (domain : String) (db : List Row)
    (c : String) :
    c ∈ get_existing_creative_ids domain db ↔
      ∃ r ∈ db, r.platform = "google" ∧ r.creative_id = some c ∧
        ((∃ d, r.domain = some d ∧ removeWWW d = removeWWW domain) ∨
         (r.domain = none ∧ ∃ l, r.landing_page_url = some l ∧
            strContains l (removeWWW domain) = true)) := by
  simp only [get_existing_creative_ids, List.mem_filterMap, List.mem_filter]
  constructor
  · rintro ⟨r, ⟨hmem, hp⟩, hc⟩
    simp only [Bool.and_eq_true, Bool.or_eq_true, beq_iff_eq,
      Option.isSome_iff_exists] at hp
    refine ⟨r, hmem, hp.1.1, hc, ?_⟩
    rcases hp.2 with hdom | hlike
    · cases hd : r.domain with
      | none => rw [hd] at hdom; simp at hdom
      | some d =>
        rw [hd] at hdom
        simp only [beq_iff_eq] at hdom
        exact Or.inl ⟨d, rfl, hdom⟩
    · right
      have hdn : r.domain = none := by
        rcases hlike with ⟨h1, _⟩
        simpa using h1
      refine ⟨hdn, ?_⟩
      rcases hlike with ⟨_, h2⟩
      cases hl : r.landing_page_url with
      | none => rw [hl] at h2; simp at h2
      | some l => rw [hl] at h2; exact ⟨l, rfl, h2⟩
  · rintro ⟨r, hmem, hplat, hc, hcase⟩
    refine ⟨r, ⟨hmem, ?_⟩, hc⟩
    simp only [Bool.and_eq_true, Bool.or_eq_true, beq_iff_eq,
      Option.isSome_iff_exists]
    refine ⟨⟨hplat, ⟨c, hc⟩⟩, ?_⟩
    rcases hcase with ⟨d, hd, hdeq⟩ | ⟨hdn, l, hl, hlc⟩
    · left; rw [hd]; simpa using hdeq
    · right
      constructor
      · simp [hdn]
      · rw [hl]; exact hlc

/-! ## C7: blocked landing URLs are never persisted -/

/-- The stored `landing_page_url` is `landing_url or None` in both
branches of `variant_to_platform_ad`. -/
theorem variant_landing_page_url (name : String) (v : Variant)
    (landing : String) :
    (variant_to_platform_ad name v landing).landing_page_url
      = if landing = "" then none else some landing := by
  cases h : v.is_text <;> simp [variant_to_platform_ad, h]

/-- The resolution chain only ever returns the empty string or a
candidate that passed the `is_blocked_url` filter. -/
theorem resolve_landing_url_not_blocked (content_url sb page : String)
    (anchor : Option String) :
    is_blocked_url (resolve_landing_url content_url sb anchor page)
      = false := by
  have hempty : is_blocked_url "" = false := rfl
  simp only [resolve_landing_url]
  split_ifs <;> simp_all

/-- A URL of shape `scheme://host…` whose host starts with a blocked
fragment (given in lowercase) is blocked by `is_blocked_url`. -/
theorem is_blocked_url_of_host_prefix (scheme host rest d : String)
    (hd : d ∈ BLOCKED_DOMAINS)
    (hlow : d.data.map Char.toLower = d.data)
    (hpre : d.data <+: host.data) :
    is_blocked_url (scheme ++ "://" ++ host ++ rest) = true := by
  have hdata : (scheme ++ "://" ++ host ++ rest).data
      = scheme.data ++ "://".data ++ host.data ++ rest.data := by
    simp [String.data_append]
  have hnonempty : (scheme ++ "://" ++ host ++ rest) ≠ "" := by
    intro h
    have h0 := congrArg String.data h
    rw [hdata] at h0
    simp at h0
  have hmap : d.data <:+: ((scheme ++ "://" ++ host ++ rest).data.map
      Char.toLower) := by
    rw [hdata]
    have h1 : d.data <+: host.data.map Char.toLower := by
      calc d.data = d.data.map Char.toLower := hlow.symm
        _ <+: host.data.map Char.toLower := hpre.map Char.toLower
    have h2 : host.data.map Char.toLower <:+:
        (scheme.data ++ "://".data ++ host.data ++ rest.data).map
          Char.toLower := by
      simp only [List.map_append]
      exact List.infix_append _ _ _
    exact h1.isInfix.trans h2
  simp only [is_blocked_url, if_neg hnonempty]
  refine List.any_eq_true.mpr ⟨d, hd, ?_⟩
  exact strContains_of_infix (by simpa [pyLower] using hmap)

/-- **C7.** `scrape_google_ads_by_domain` never persists a blocked
landing URL: the resolution chain filters every candidate (sadbundle
`adurl=`, variant anchor, page-common landing) through `is_blocked_url`,
so the produced ad — which is still created and stored — cannot carry a
`landing_page_url` whose host starts with `naver.`, `kakao.`,
`facebook.` or `instagram.`; a fully blocked resolution stores `NULL`. -/
theorem blocked_landing_never_stored (name : String) (v : Variant)
    (content_url sb page : String) (anchor : Option String)
    (scheme host rest : String)
    (hpre : "naver.".data <+: host.data ∨ "kakao.".data <+: host.data ∨
      "facebook.".data <+: host.data ∨ "instagram.".data <+: host.data) :
    (variant_to_platform_ad name v
        (resolve_landing_url content_url sb anchor page)).landing_page_url
      ≠ some (scheme ++ "://" ++ host ++ rest) := by
  intro heq
  rw [variant_landing_page_url] at heq
  have hblocked : is_blocked_url (scheme ++ "://" ++ host ++ rest)
      = true := by
    rcases hpre with h | h | h | h
    · exact is_blocked_url_of_host_prefix scheme host rest "naver."
        (by decide) (by decide) h
    · exact is_blocked_url_of_host_prefix scheme host rest "kakao."
        (by decide) (by decide) h
    · exact is_blocked_url_of_host_prefix scheme host rest "facebook."
        (by decide) (by decide) h
    · exact is_blocked_url_of_host_prefix scheme host rest "instagram."
        (by decide) (by decide) h
  by_cases hres : resolve_landing_url content_url sb anchor page = ""
  · rw [if_pos hres] at heq
    cases heq
  · rw [if_neg hres] at heq
    have := resolve_landing_url_not_blocked content_url sb page anchor
    rw [Option.some_inj.mp heq] at this
    rw [hblocked] at this
    cases this

/-- Witness for C7: concrete blocked host, concrete resolution inputs. -/
theorem blocked_landing_never_stored_witness :
    (variant_to_platform_ad "Acme" exVariantImg
        (resolve_landing_url "https://cdn.example/img1" ""
          (some "https://naver.com/x") "")).landing_page_url
      ≠ some ("https" ++ "://" ++ "naver.com" ++ "/x") :=
  blocked_landing_never_stored "Acme" exVariantImg
    "https://cdn.example/img1" "" "" (some "https://naver.com/x")
    "https" "naver.com" "/x" (Or.inl (by decide))

/-! ## C8: YouTube canonicalization -/

/-- A variant from which a YouTube video ID is recovered (via the
`[?&]video_id=` regex) but which carries none of the video markers:
`is_video` is false and no `VIDEO_URL_KEYWORDS` fragment occurs in the
content URL. -/
def exVariantParamId : Variant :=
  { content_url := "https://example.com/show?video_id=abcdefghij1" }

/-- **C8 (counterexample).** A YouTube video ID is recovered from the
variant, yet the resulting ad does not carry the canonical
`i.ytimg.com` thumbnail / `youtube.com/watch` preview, because the source
canonicalizes only variants classified as video (`is_video and
video_id`). -/
theorem youtube_canonicalization_counterexample :
    recoveredVideoId exVariantParamId = some "abcdefghij1" ∧
    variantIsVideo exVariantParamId = false ∧
    (variant_to_platform_ad "Acme" exVariantParamId "").thumbnail_url
      = "https://example.com/show?video_id=abcdefghij1" ∧
    (variant_to_platform_ad "Acme" exVariantParamId "").thumbnail_url
      ≠ "https://i.ytimg.com/vi/abcdefghij1/maxresdefault.jpg" ∧
    (variant_to_platform_ad "Acme" exVariantParamId "").preview_url
      ≠ some "https://www.youtube.com/watch?v=abcdefghij1" := by
  refine ⟨by decide, by decide, by decide, by decide, by decide⟩

/-- **C8 (amended).** For every Google variant *classified as video*
(the JS `is_video` hint or a video keyword in the content URL) from which
a YouTube video ID `V` is recovered, the resulting ad carries exactly
`thumbnail_url = https://i.ytimg.com/vi/V/maxresdefault.jpg` and
`preview_url = https://www.youtube.com/watch?v=V`. -/
theorem youtube_canonicalization (name : String) (v : Variant)
    (landing : String) (vid : String)
    (hv : v.is_text = false) (hvid : variantIsVideo v = true)
    (hrec : recoveredVideoId v = some vid) :
    (variant_to_platform_ad name v landing).thumbnail_url
      = "https://i.ytimg.com/vi/" ++ vid ++ "/maxresdefault.jpg" ∧
    (variant_to_platform_ad name v landing).preview_url
      = some ("https://www.youtube.com/watch?v=" ++ vid) := by
  constructor <;> simp [variant_to_platform_ad, hv, hvid, hrec]

/-- A genuine video variant: YouTube watch URL as content URL. -/
def exVariantVideo : Variant :=
  { content_url := "https://www.youtube.com/watch?v=abc12345678" }

/-- Witness for C8 (amended) at a concrete video variant. -/
theorem youtube_canonicalization_witness :
    (variant_to_platform_ad "Acme" exVariantVideo "").thumbnail_url
      = "https://i.ytimg.com/vi/" ++ "abc12345678" ++ "/maxresdefault.jpg" ∧
    (variant_to_platform_ad "Acme" exVariantVideo "").preview_url
      = some ("https://www.youtube.com/watch?v=" ++ "abc12345678") :=
  youtube_canonicalization "Acme" exVariantVideo "" "abc12345678"
    rfl (by decide) (by decide)

/-! ## C9: domain derivation -/

theorem isInfix_of_listContainsSub {pat s : List Char}
    (h : listContainsSub pat s = true) : pat <:+: s := by
  induction s with
  | nil =>
    simp only [listContainsSub, List.isEmpty_iff] at h
    simp [h]
  | cons c tl ih =>
    simp only [listContainsSub, Bool.or_eq_true] at h
    rcases h with h | h
    · exact (List.isPrefixOf_iff_prefix.mp h).isInfix
    · exact List.infix_cons (ih h)

theorem forall_eq_of_map_eq {l : List Char} {f : Char → Char}
    (h : l.map f = l) : ∀ x ∈ l, f x = x := by
  induction l with
  | nil => intro x hx; cases hx
  | cons a t ih =>
    simp only [List.map_cons, List.cons.injEq] at h
    intro x hx
    rcases List.mem_cons.mp hx with rfl | hx'
    · exact h.1
    · exact ih h.2 x hx'

theorem map_eq_of_forall {l : List Char} {f : Char → Char}
    (h : ∀ x ∈ l, f x = x) : l.map f = l := by
  induction l with
  | nil => rfl
  | cons a t ih =>
    simp only [List.map_cons]
    rw [h a (List.mem_cons_self a t),
      ih (fun x hx => h x (List.mem_cons_of_mem _ hx))]

/-- The domain formula as the spec states it: the landing URL's host,
with a leading `www.` stripped, lowercased
(`lowercase(strip_prefix(domain_raw, "www."))`). -/
def stripWWWPrefix (l : List Char) : List Char :=
  if "www.".data.isPrefixOf l then l.drop 4 else l

def specDomainOf (landing : String) : String :=
  match stripScheme landing with
  | none => ""
  | some a => pyLower ⟨stripWWWPrefix (a.takeWhile notSlash)⟩

/-- **C9 (counterexample).** An uppercase host is persisted verbatim:
neither lowercased nor `www.`-stripped (the regex's `www\.` is
case-sensitive), so the derived domain differs from the claim's
`lowercase(strip_prefix(host, "www."))`. -/
theorem domain_normalization_counterexample :
    (variant_to_platform_ad "Acme" exVariantImg
        "https://WWW.Example.COM/x").domain = "WWW.Example.COM" ∧
    specDomainOf "https://WWW.Example.COM/x" = "www.example.com" ∧
    (variant_to_platform_ad "Acme" exVariantImg
        "https://WWW.Example.COM/x").domain
      ≠ specDomainOf "https://WWW.Example.COM/x" := by
  refine ⟨by decide, by decide, by decide⟩

/-- **C9 (amended).** For every ad built by `variant_to_platform_ad`
(text or not), the derived `domain` is the regex host extraction
`extract_domain landing`: it contains no `/` and no scheme separator,
and — whenever the part after the scheme is already lowercase (and the
`www.` strip does not degenerate to an empty host) — it agrees with the
spec's `lowercase(strip_prefix(host, "www."))` formula. Case is
preserved: only a literal lowercase `www.` prefix is stripped and no
lowercasing is applied. -/
theorem extract_domain_no_slash (landing : String) :
    ∀ c ∈ (extract_domain landing).data, c ≠ '/' := by
  intro c hc
  by_cases h0 : landing = ""
  · rw [extract_domain, if_pos h0] at hc
    exact absurd hc (List.not_mem_nil c)
  · cases hs : stripScheme landing with
    | none =>
      simp only [extract_domain, if_neg h0, hs] at hc
      exact absurd hc (List.not_mem_nil c)
    | some a =>
      simp only [extract_domain, if_neg h0, hs] at hc
      set afterW :=
        if ("www.".data.isPrefixOf a &&
            !((a.drop 4).takeWhile notSlash).isEmpty) = true
        then a.drop 4 else a with hafter
      by_cases hh : (afterW.takeWhile notSlash).isEmpty = true
      · rw [if_pos hh] at hc
        exact absurd hc (List.not_mem_nil c)
      · rw [if_neg hh] at hc
        have := List.mem_takeWhile_imp hc
        simpa [notSlash] using this

theorem domain_derivation (name : String) (v : Variant) (landing : String) :
    (variant_to_platform_ad name v landing).domain
        = extract_domain landing ∧
    (∀ c ∈ (extract_domain landing).data, c ≠ '/') ∧
    strContains (extract_domain landing) "://" = false ∧
    (∀ a, stripScheme landing = some a →
      a.map Char.toLower = a →
      ((a.drop 4).takeWhile notSlash ≠ [] ∨
        ¬ ("www.".data.isPrefixOf a = true)) →
      extract_domain landing = specDomainOf landing) := by
  refine ⟨?_, extract_domain_no_slash landing, ?_, ?_⟩
  · cases h : v.is_text <;> simp [variant_to_platform_ad, h]
  · cases hq : strContains (extract_domain landing) "://" with
    | false => rfl
    | true =>
      exfalso
      have hinf := isInfix_of_listContainsSub hq
      rcases hinf with ⟨l1, l2, hl⟩
      have : '/' ∈ (extract_domain landing).data := by
        rw [← hl]
        simp
      exact extract_domain_no_slash landing '/' this rfl
  · intro a hs hlow hcond
    have h0 : landing ≠ "" := by
      intro h
      rw [h] at hs
      simp [stripScheme, strStartsWith] at hs
    cases hw : "www.".data.isPrefixOf a with
    | true =>
      rcases hcond with hne | hfalse
      · obtain ⟨t, ht⟩ := List.isPrefixOf_iff_prefix.mp hw
        have hdrop : a.drop 4 = t := by rw [← ht]; rfl
        have htake : a.takeWhile notSlash
            = 'w' :: 'w' :: 'w' :: '.' :: t.takeWhile notSlash := by
          rw [← ht]; rfl
        rw [hdrop] at hne
        have hne' : (t.takeWhile notSlash).isEmpty = false := by
          cases hq : (t.takeWhile notSlash).isEmpty with
          | false => rfl
          | true => exact absurd (List.isEmpty_iff.mp hq) hne
        have hcondb : ("www.".data.isPrefixOf a &&
            !((a.drop 4).takeWhile notSlash).isEmpty) = true := by
          rw [hw, hdrop, hne']; rfl
        have hw' : (['w', 'w', 'w', '.'].isPrefixOf a) = true := hw
        have hex : extract_domain landing = ⟨t.takeWhile notSlash⟩ := by
          simp only [extract_domain, if_neg h0, hs, hdrop]
          simp [hw', hne']
        have hspec : specDomainOf landing
            = pyLower ⟨t.takeWhile notSlash⟩ := by
          simp only [specDomainOf, hs, htake]
          have hstrip : stripWWWPrefix
              ('w' :: 'w' :: 'w' :: '.' :: t.takeWhile notSlash)
              = t.takeWhile notSlash := by
            have hp : ("www.".data.isPrefixOf
                ('w' :: 'w' :: 'w' :: '.' :: t.takeWhile notSlash)) = true :=
              List.isPrefixOf_iff_prefix.mpr ⟨t.takeWhile notSlash, rfl⟩
            simp only [stripWWWPrefix, hp, if_true]
            rfl
          rw [hstrip]
        rw [hex, hspec]
        have hid : (t.takeWhile notSlash).map Char.toLower
            = t.takeWhile notSlash := by
          apply map_eq_of_forall
          intro x hx
          apply forall_eq_of_map_eq hlow
          rw [← ht]
          exact List.mem_append_right _ ((List.takeWhile_prefix _).subset hx)
        show _ = String.mk _
        rw [hid]
      · exact absurd hw (by simpa using hfalse)
    | false =>
      have hcondb : ("www.".data.isPrefixOf a &&
          !((a.drop 4).takeWhile notSlash).isEmpty) = false := by
        rw [hw]; rfl
      by_cases hh : (a.takeWhile notSlash).isEmpty = true
      · have hex : extract_domain landing = "" := by
          simp only [extract_domain, if_neg h0, hs, hcondb,
            Bool.false_eq_true, if_false, hh, if_true]
        have hspec : specDomainOf landing = "" := by
          simp only [specDomainOf, hs, List.isEmpty_iff.mp hh]
          rfl
        rw [hex, hspec]
      · have hwh : "www.".data.isPrefixOf (a.takeWhile notSlash)
            = false := by
          cases hq : "www.".data.isPrefixOf (a.takeWhile notSlash) with
          | false => rfl
          | true =>
            exfalso
            have h1 := List.isPrefixOf_iff_prefix.mp hq
            have h2 : ("www.".data : List Char) <+: a :=
              h1.trans (List.takeWhile_prefix _)
            rw [List.isPrefixOf_iff_prefix.mpr h2] at hw
            cases hw
        have hex : extract_domain landing = ⟨a.takeWhile notSlash⟩ := by
          simp only [extract_domain, if_neg h0, hs, hcondb,
            Bool.false_eq_true, if_false, hh, if_true]
        have hspec : specDomainOf landing
            = pyLower ⟨a.takeWhile notSlash⟩ := by
          simp only [specDomainOf, hs, stripWWWPrefix, hwh,
            Bool.false_eq_true, if_false]
        rw [hex, hspec]
        have hid : (a.takeWhile notSlash).map Char.toLower
            = a.takeWhile notSlash :=
          map_eq_of_forall (fun x hx => forall_eq_of_map_eq hlow x
            ((List.takeWhile_prefix _).subset hx))
        show _ = String.mk _
        rw [hid]

/-- Witness for C9 at a concrete landing URL with lowercase host. -/
theorem domain_derivation_witness :
    (variant_to_platform_ad "Acme" exVariantImg
        "https://www.acme.com/p").domain
      = extract_domain "https://www.acme.com/p" ∧
    extract_domain "https://www.acme.com/p"
      = specDomainOf "https://www.acme.com/p" :=
  ⟨(domain_derivation "Acme" exVariantImg "https://www.acme.com/p").1,
   (domain_derivation "Acme" exVariantImg "https://www.acme.com/p").2.2.2
     "www.acme.com/p".data (by decide) (by decide) (Or.inl (by decide))⟩

/-! ## C10: batched streaming -/

/-- Unfolding equations of `collectGo` (definitional). -/
theorem collectGo_nil (cb : Bool) (maxR : Option Nat) (seen : List String)
    (buf acc : List PlatformAd) (total : Nat) :
    collectGo cb maxR [] seen buf acc total = (finalFlush cb buf, acc) := rfl

theorem collectGo_true_cons (maxR : Option Nat) (ad : PlatformAd)
    (rest : List PlatformAd) (seen : List String)
    (buf acc : List PlatformAd) (total : Nat) :
    collectGo true maxR (ad :: rest) seen buf acc total =
      if seen.contains ad.source_id then
        collectGo true maxR rest seen buf acc total
      else if (buf ++ [ad]).length ≥ BATCH_SIZE then
        (if hitLimit maxR (total + 1) then ([buf ++ [ad]], acc)
         else
          ((buf ++ [ad]) ::
            (collectGo true maxR rest (ad.source_id :: seen) [] acc
              (total + 1)).1,
           (collectGo true maxR rest (ad.source_id :: seen) [] acc
              (total + 1)).2))
      else
        (if hitLimit maxR (total + 1) then (finalFlush true (buf ++ [ad]), acc)
         else collectGo true maxR rest (ad.source_id :: seen) (buf ++ [ad])
            acc (total + 1)) := rfl

theorem collectGo_false_cons (maxR : Option Nat) (ad : PlatformAd)
    (rest : List PlatformAd) (seen : List String)
    (buf acc : List PlatformAd) (total : Nat) :
    collectGo false maxR (ad :: rest) seen buf acc total =
      if seen.contains ad.source_id then
        collectGo false maxR rest seen buf acc total
      else if hitLimit maxR (total + 1) then ([], acc ++ [ad])
      else collectGo false maxR rest (ad.source_id :: seen) buf (acc ++ [ad])
        (total + 1) := rfl

theorem finalFlush_true (buf : List PlatformAd) :
    finalFlush true buf = if buf.isEmpty then [] else [buf] := by
  cases hbe : buf.isEmpty <;> simp [finalFlush, hbe]

/-- With a callback installed, `platform_ads` is never appended to. -/
theorem collectGo_true_acc (maxR : Option Nat) (cands : List PlatformAd) :
    ∀ (seen : List String) (buf acc : List PlatformAd) (total : Nat),
      (collectGo true maxR cands seen buf acc total).2 = acc := by
  induction cands with
  | nil => intro seen buf acc total; rfl
  | cons ad rest ih =>
    intro seen buf acc total
    rw [collectGo_true_cons]
    by_cases hseen : seen.contains ad.source_id = true
    · rw [if_pos hseen]; exact ih _ _ _ _
    · rw [if_neg hseen]
      by_cases hfull : (buf ++ [ad]).length ≥ BATCH_SIZE
      · rw [if_pos hfull]
        by_cases hlim : hitLimit maxR (total + 1) = true
        · rw [if_pos hlim]
        · rw [if_neg hlim]
          exact ih _ _ _ _
      · rw [if_neg hfull]
        by_cases hlim : hitLimit maxR (total + 1) = true
        · rw [if_pos hlim]
        · rw [if_neg hlim]
          exact ih _ _ _ _

/-- Every emitted batch carries at most `BATCH_SIZE` ads. -/
theorem collectGo_batch_sizes (maxR : Option Nat) (cands : List PlatformAd) :
    ∀ (seen : List String) (buf acc : List PlatformAd) (total : Nat),
      buf.length < BATCH_SIZE →
      ∀ b ∈ (collectGo true maxR cands seen buf acc total).1,
        b.length ≤ BATCH_SIZE := by
  induction cands with
  | nil =>
    intro seen buf acc total hlen b hb
    rw [collectGo_nil, finalFlush_true] at hb
    by_cases hbe : buf.isEmpty = true
    · rw [if_pos hbe] at hb
      exact absurd hb (List.not_mem_nil b)
    · rw [if_neg hbe] at hb
      simp only [List.mem_singleton] at hb
      subst hb
      omega
  | cons ad rest ih =>
    intro seen buf acc total hlen b hb
    have hsz : (buf ++ [ad]).length ≤ BATCH_SIZE := by
      simp only [List.length_append, List.length_singleton]
      omega
    rw [collectGo_true_cons] at hb
    by_cases hseen : seen.contains ad.source_id = true
    · rw [if_pos hseen] at hb
      exact ih _ _ _ _ hlen b hb
    · rw [if_neg hseen] at hb
      by_cases hfull : (buf ++ [ad]).length ≥ BATCH_SIZE
      · rw [if_pos hfull] at hb
        by_cases hlim : hitLimit maxR (total + 1) = true
        · rw [if_pos hlim] at hb
          simp only [List.mem_singleton] at hb
          subst hb
          exact hsz
        · rw [if_neg hlim] at hb
          simp only [List.mem_cons] at hb
          rcases hb with rfl | hb
          · exact hsz
          · exact ih _ _ _ _ (by simp [BATCH_SIZE]) b hb
      · rw [if_neg hfull] at hb
        by_cases hlim : hitLimit maxR (total + 1) = true
        · rw [if_pos hlim, finalFlush_true] at hb
          by_cases hbe : (buf ++ [ad]).isEmpty = true
          · rw [if_pos hbe] at hb
            exact absurd hb (List.not_mem_nil b)
          · rw [if_neg hbe] at hb
            simp only [List.mem_singleton] at hb
            subst hb
            exact hsz
        · rw [if_neg hlim] at hb
          refine ih _ _ _ _ ?_ b hb
          simp only [List.length_append, List.length_singleton] at hfull ⊢
          omega

/-- Accumulator lemma for the non-streaming mode. -/
theorem collectGo_false_acc (maxR : Option Nat) (cands : List PlatformAd) :
    ∀ (seen : List String) (buf acc : List PlatformAd) (total : Nat),
      (collectGo false maxR cands seen buf acc total).2
        = acc ++ (collectGo false maxR cands seen buf [] total).2 := by
  induction cands with
  | nil => intro seen buf acc total; simp [collectGo_nil]
  | cons ad rest ih =>
    intro seen buf acc total
    rw [collectGo_false_cons, collectGo_false_cons]
    by_cases hseen : seen.contains ad.source_id = true
    · rw [if_pos hseen, if_pos hseen]
      exact ih _ _ _ _
    · rw [if_neg hseen, if_neg hseen]
      by_cases hlim : hitLimit maxR (total + 1) = true
      · rw [if_pos hlim, if_pos hlim]
        simp
      · rw [if_neg hlim, if_neg hlim]
        rw [ih _ _ (acc ++ [ad]) _, ih _ _ ([] ++ [ad]) _]
        simp

/-- The concatenated batches of the streaming mode are exactly the list
the non-streaming mode would have returned. -/
theorem collectGo_join (maxR : Option Nat) (cands : List PlatformAd) :
    ∀ (seen : List String) (buf acc : List PlatformAd) (total : Nat),
      (collectGo true maxR cands seen buf acc total).1.flatten
        = buf ++ (collectGo false maxR cands seen [] [] total).2 := by
  induction cands with
  | nil =>
    intro seen buf acc total
    rw [collectGo_nil, collectGo_nil]
    by_cases hbe : buf.isEmpty = true
    · rw [finalFlush_true, if_pos hbe]
      simp [List.isEmpty_iff.mp hbe, finalFlush]
    · rw [finalFlush_true, if_neg hbe]
      simp [finalFlush]
  | cons ad rest ih =>
    intro seen buf acc total
    rw [collectGo_true_cons, collectGo_false_cons]
    by_cases hseen : seen.contains ad.source_id = true
    · rw [if_pos hseen, if_pos hseen]
      exact ih _ _ _ _
    · rw [if_neg hseen, if_neg hseen]
      by_cases hlim : hitLimit maxR (total + 1) = true
      · by_cases hfull : (buf ++ [ad]).length ≥ BATCH_SIZE
        · rw [if_pos hfull, if_pos hlim, if_pos hlim]
          simp
        · rw [if_neg hfull, if_pos hlim, if_pos hlim, finalFlush_true]
          have hbe : (buf ++ [ad]).isEmpty = false := by
            cases hq : (buf ++ [ad]).isEmpty with
            | false => rfl
            | true =>
              have := List.isEmpty_iff.mp hq
              simp [List.append_eq_nil] at this
          rw [if_neg (by simp [hbe])]
          simp
      · by_cases hfull : (buf ++ [ad]).length ≥ BATCH_SIZE
        · rw [if_pos hfull, if_neg hlim, if_neg hlim]
          simp only [List.flatten_cons]
          rw [ih _ _ _ _, collectGo_false_acc maxR rest _ _ ([] ++ [ad]) _]
          simp
        · rw [if_neg hfull, if_neg hlim, if_neg hlim]
          rw [ih _ _ _ _, collectGo_false_acc maxR rest _ _ ([] ++ [ad]) _]
          simp

/-- The non-streaming mode never delivers the same `source_id` twice. -/
theorem collectGo_false_nodup (maxR : Option Nat) (cands : List PlatformAd) :
    ∀ (seen : List String) (buf acc : List PlatformAd) (total : Nat),
      (∀ a ∈ acc, a.source_id ∈ seen) →
      (acc.map (fun a => a.source_id)).Nodup →
      (((collectGo false maxR cands seen buf acc total).2).map
          (fun a => a.source_id)).Nodup := by
  induction cands with
  | nil =>
    intro seen buf acc total _ hnd
    exact hnd
  | cons ad rest ih =>
    intro seen buf acc total hin hnd
    rw [collectGo_false_cons]
    by_cases hseen : seen.contains ad.source_id = true
    · rw [if_pos hseen]
      exact ih _ _ _ _ hin hnd
    · rw [if_neg hseen]
      have hnotin : ad.source_id ∉ seen := by
        intro hmem
        exact hseen (by simpa using hmem)
      have hnd' : ((acc ++ [ad]).map (fun a => a.source_id)).Nodup := by
        simp only [List.map_append, List.map_cons, List.map_nil]
        rw [List.nodup_append]
        refine ⟨hnd, List.nodup_singleton _, ?_⟩
        intro x hx hx'
        simp only [List.mem_map] at hx
        rcases hx with ⟨a, ha, rfl⟩
        simp only [List.mem_singleton] at hx'
        exact hnotin (hx' ▸ hin a ha)
      have hin' : ∀ a ∈ acc ++ [ad], a.source_id ∈
          ad.source_id :: seen := by
        intro a ha
        rcases List.mem_append.mp ha with ha | ha
        · exact List.mem_cons_of_mem _ (hin a ha)
        · simp only [List.mem_singleton] at ha
          subst ha
          exact List.mem_cons_self _ _
      by_cases hlim : hitLimit maxR (total + 1) = true
      · rw [if_pos hlim]
        exact hnd'
      · rw [if_neg hlim]
        exact ih _ _ _ _ hin' hnd'

/-- **C10.** When `scrape_google_ads_by_domain` runs with an
`on_batch_callback`: the function's own return value is the empty list;
every emitted batch has at most `BATCH_SIZE = 50` ads; the concatenation
of the emitted batches is exactly the ad list the call would have
returned without a callback (everything is delivered through the
callback, including the final partial batch); and no `source_id` is
delivered twice. -/
theorem batched_streaming (maxR : Option Nat) (cands : List PlatformAd) :
    (scrape_collect true maxR cands).2 = [] ∧
    (∀ b ∈ (scrape_collect true maxR cands).1, b.length ≤ BATCH_SIZE) ∧
    (scrape_collect true maxR cands).1.flatten
      = (scrape_collect false maxR cands).2 ∧
    (((scrape_collect true maxR cands).1.flatten).map
        (fun a => a.source_id)).Nodup := by
  have hjoin : (scrape_collect true maxR cands).1.flatten
      = (scrape_collect false maxR cands).2 := by
    simpa [scrape_collect] using collectGo_join maxR cands [] [] [] 0
  refine ⟨collectGo_true_acc maxR cands [] [] [] 0,
    collectGo_batch_sizes maxR cands [] [] [] 0 (by simp [BATCH_SIZE]),
    hjoin, ?_⟩
  rw [hjoin]
  exact collectGo_false_nodup maxR cands [] [] [] 0
    (by intro a ha; cases ha) List.nodup_nil

/-! ## Supplementary witnesses -/

/-- Witness for C1 at a concrete singleton batch. -/
theorem upsert_batch_idempotent_witness :
    (upsert_ads_batch 2 none [exAdGood]
        (upsert_ads_batch 1 none [exAdGood] []).1).2.new = 0 ∧
    (upsert_ads_batch 2 none [exAdGood]
        (upsert_ads_batch 1 none [exAdGood] []).1).2.updated
      = [exAdGood].length :=
  ⟨(upsert_batch_idempotent 1 2 none none [exAdGood] []).2.1,
   (upsert_batch_idempotent 1 2 none none [exAdGood] []).2.2⟩

/-- A google row whose stored domain matches the queried domain after
`www.` removal. -/
def exRowC6b : Row :=
  { exRowC6 with domain := some "www.acme.com" }

/-- Witness for C6 (amended) at a concrete matching row. -/
theorem get_existing_creative_ids_spec_witness :
    "CR1" ∈ get_existing_creative_ids "acme.com" [exRowC6b] :=
  (get_existing_creative_ids_spec "acme.com" [exRowC6b] "CR1").mpr
    ⟨exRowC6b, by simp, rfl, rfl,
      Or.inl ⟨"www.acme.com", rfl, by decide⟩⟩

/-- Witness for C10 at a concrete candidate stream. -/
theorem batched_streaming_witness :
    (scrape_collect true (some 3) [exAdGood]).2 = [] ∧
    (scrape_collect true (some 3) [exAdGood]).1.flatten
      = (scrape_collect false (some 3) [exAdGood]).2 :=
  ⟨(batched_streaming (some 3) [exAdGood]).1,
   (batched_streaming (some 3) [exAdGood]).2.2.1⟩

end AdRef
